import Mathlib

set_option maxRecDepth 40000

/-!
Shallow embedding, in Lean 4, of the retrieval / context-assembly pipeline of
the EU-Green-Agent repository (Python), together with theorems settling the
claims of its specification.

Conventions of the embedding:
* Python `str` is `String` (a list of characters); positions are `Nat`.
* Python `float` is idealised as `ℚ`; `math.sqrt`, which the code applies to a
  sum of squares, is kept opaque and passed in as a parameter `sqrtFn : ℚ → ℚ`.
  Every property proved about similarity scores holds for an arbitrary
  `sqrtFn`, i.e. for the real square root in particular.
* External collaborators (OpenAI embeddings and completions, Tavily web
  search, the PostgreSQL store) enter as explicit parameters: the row set a
  query fetches, the outcome of a web search (`Except`), the outcome of a
  completion call (`Except`).  The database is a pure `DbState` value.
* Loops with data-dependent exits carry an explicit fuel argument; `none`
  means the fuel ran out, i.e. the Python loop has not terminated yet.
* Side effects on external services are recorded in a call trace
  (`List ExtCall`), mirroring exactly the call sites of the Python code.
-/

namespace EuGreen

/-! ### Basic string machinery (Python `str.strip`, `re.sub(r"\s+", " ", ·)`,
`needle in hay`, `str.lower`) -/

/-- Characters matched by Python's `\s` class (the ones relevant here). -/
def isWsChar (c : Char) : Bool :=
  c == ' ' || c == '\t' || c == '\n' || c == '\r' || c == '\x0b' || c == '\x0c'

/-- Python `str.strip()` on a character list: drop whitespace at both ends. -/
def stripChars (l : List Char) : List Char :=
  ((l.dropWhile isWsChar).reverse.dropWhile isWsChar).reverse

/-- Collapse every maximal run of whitespace to a single blank, as
`re.sub(r"\s+", " ", text)` does. -/
def collapseWs : List Char → List Char
  | [] => []
  | [c] => [if isWsChar c then ' ' else c]
  | c :: d :: rest =>
    if isWsChar c && isWsChar d then collapseWs (d :: rest)
    else (if isWsChar c then ' ' else c) :: collapseWs (d :: rest)

/-- `re.sub(r"\s+", " ", text.strip())` — the normalisation at the top of
`RAGService._create_chunks`. -/
def normalizeText (s : String) : String :=
  String.mk (collapseWs (stripChars s.data))

/-- Whether `needle` is a prefix of `hay` (character lists). -/
def leadMatch : List Char → List Char → Bool
  | [], _ => true
  | _ :: _, [] => false
  | a :: as, b :: bs => a == b && leadMatch as bs

/-- Helper for substring search: does `needle` occur in `hay`? -/
def hasSubAux (needle : List Char) : List Char → Bool
  | [] => needle.isEmpty
  | c :: cs => leadMatch needle (c :: cs) || hasSubAux needle cs

/-- Python `needle in hay` on strings. -/
def containsSub (hay needle : String) : Bool :=
  hasSubAux needle.data hay.data

/-- Python `str.lower()` (ASCII-adequate for the keyword lists involved). -/
def strLower (s : String) : String :=
  String.mk (s.data.map Char.toLower)

/-! ### The chunker: `RAGService._create_chunks` (rag_service.py:55-123) -/

/-- Sentence-ending punctuation searched for by the chunker. -/
def isPunctChar (c : Char) : Bool :=
  c == '.' || c == '!' || c == '?'

/-- One step of the scan for sentence-ending punctuation: keep index `i`
when it lies in `[a, b)` and holds a sentence end. -/
def punctStep (l : List Char) (a b : Nat) (acc : Int) (i : Nat) : Int :=
  if a ≤ i && i < b && isPunctChar (l.getD i ' ') then (i : Int) else acc

/-- Rightmost index `i` with `a ≤ i < b` holding `.`, `!` or `?`, as the
maximum of the three Python `rfind` calls; `-1` when there is none. -/
def lastPunct (l : List Char) (a b : Nat) : Int :=
  (List.range l.length).foldl (punctStep l a b) (-1)

/-- End position of the chunk starting at `start`: `start + chunk_size`,
snapped back to just after a sentence end found in the final 100 characters
of the window, provided that end lies strictly past `start`
(rag_service.py:83-96). -/
def chunkEnd (chunkSize : Nat) (l : List Char) (start : Nat) : Nat :=
  let e := start + chunkSize
  if e < l.length then
    let searchStart := max (start + chunkSize - 100) start
    let se := lastPunct l searchStart e
    if (start : Int) < se then se.toNat + 1 else e
  else e

/-- Start position of the next iteration: `end - overlap`
(rag_service.py:114).  Python's `int` may go negative here; the subtraction
is truncated at 0, which agrees with the source on every run considered
below (the loop stops advancing before the value could drop below zero). -/
def chunkNextStart (chunkSize overlap : Nat) (l : List Char) (start : Nat) : Nat :=
  chunkEnd chunkSize l start - overlap

/-- The chunking `while` loop (rag_service.py:82-116), fuel-indexed.
`none` means the fuel was exhausted, i.e. the Python loop is still running.
Empty chunk texts are skipped exactly as `if chunk_text:` does. -/
def chunkLoop (chunkSize overlap : Nat) (l : List Char) : Nat → Nat → Option (List String)
  | 0, _ => none
  | fuel + 1, start =>
    if start < l.length then
      let e := chunkEnd chunkSize l start
      let ct := String.mk (stripChars (List.take (e - start) (List.drop start l)))
      match chunkLoop chunkSize overlap l fuel (chunkNextStart chunkSize overlap l start) with
      | none => none
      | some rest => some (if ct = "" then rest else ct :: rest)
    else some []

/-- `RAGService._create_chunks`, reduced to the chunk texts (the index and
span metadata attached to each chunk play no role in the claims).  A text no
longer than `chunk_size` is returned whole as a single chunk — including the
empty text. -/
def createChunks (chunkSize overlap fuel : Nat) (text : String) : Option (List String) :=
  let t := normalizeText text
  if t.data.length ≤ chunkSize then some [t]
  else chunkLoop chunkSize overlap t.data fuel 0

/-- Character list with a sentence end at index 99, used to exhibit a
non-advancing chunking step under `overlap < chunk_size`. -/
def punctText : List Char := List.replicate 99 'a' ++ '.' :: List.replicate 50 'a'

/-! ### Cosine similarity: `RAGService._calculate_cosine_similarity`
(rag_service.py:229-268) -/

/-- `_calculate_cosine_similarity`.  Vectors of unequal length are silently
truncated to the common prefix; a zero magnitude yields `0.0`; otherwise the
quotient is clamped into `[0, 1]` by `max(0.0, min(1.0, ·))`.  `math.sqrt`
is the opaque parameter `sqrtFn` (applied, as in the source, to the sums of
squares); every theorem below holds for an arbitrary `sqrtFn`. -/
def calculateCosineSimilarity (sqrtFn : ℚ → ℚ) (vec1 vec2 : List ℚ) : ℚ :=
  let n := min vec1.length vec2.length
  let v1 := vec1.take n
  let v2 := vec2.take n
  let dotProduct := (List.zipWith (fun a b => a * b) v1 v2).sum
  let magnitude1 := sqrtFn ((v1.map fun a => a * a).sum)
  let magnitude2 := sqrtFn ((v2.map fun a => a * a).sum)
  if magnitude1 = 0 ∨ magnitude2 = 0 then 0
  else max 0 (min 1 (dotProduct / (magnitude1 * magnitude2)))

/-! ### Vector search: `RAGService.search_documents` (rag_service.py:148-227) -/

/-- A joined `document_chunks` × `documents` row as fetched by the search
query. -/
structure DbRow where
  id : Nat
  content : String
  filename : String
  originalFilename : Option String
  documentId : Nat
  embedding : List ℚ
  deriving DecidableEq

/-- A search result entry built by `search_documents` (the metadata and
embedding-model fields it copies verbatim are omitted). -/
structure SearchHit where
  id : Nat
  title : String
  content : String
  filename : String
  similarity : ℚ
  documentId : Nat
  deriving DecidableEq

/-- Descending order on similarity, the sort key of
`results.sort(key=..., reverse=True)`. -/
def simGe (a b : SearchHit) : Prop := b.similarity ≤ a.similarity

instance : DecidableRel simGe :=
  fun a b => inferInstanceAs (Decidable (b.similarity ≤ a.similarity))

instance : IsTotal SearchHit simGe :=
  ⟨fun a b => le_total b.similarity a.similarity⟩

instance : IsTrans SearchHit simGe :=
  ⟨fun _ _ _ h1 h2 => le_trans h2 h1⟩

/-- Row-to-result projection made by `search_documents` for a row passing
the similarity floor; the title is `original_filename or filename` (Python
`or`: an absent or empty `original_filename` falls back to `filename`). -/
def mkSearchHit (row : DbRow) (sim : ℚ) : SearchHit :=
  { id := row.id
    title := match row.originalFilename with
      | some s => if s = "" then row.filename else s
      | none => row.filename
    content := row.content
    filename := row.filename
    similarity := sim
    documentId := row.documentId }

/-- `search_documents` past the query-embedding call: `rows` is the
candidate list returned by the SQL query — the source fetches it with
`ORDER BY RANDOM() LIMIT min(1000, top_k * 50)`, so `rows` arrives in random
order and may be a strict subset of the stored chunks.  Similarity is
computed per row in Python, rows with similarity `> 0.3` are kept, the
results are sorted by descending similarity with Python's stable `sort`
(modelled by the stable `insertionSort`) and truncated to `top_k`. -/
def searchDocuments (sqrtFn : ℚ → ℚ) (queryEmbedding : List ℚ) (rows : List DbRow)
    (topK : Nat) : List SearchHit :=
  let results := rows.filterMap fun row =>
    let sim := calculateCosineSimilarity sqrtFn queryEmbedding row.embedding
    if 3/10 < sim then some (mkSearchHit row sim) else none
  (List.insertionSort simGe results).take topK

/-- Concrete stored row: chunk inserted first. -/
def rowA : DbRow :=
  { id := 1, content := "contentA", filename := "fileA", originalFilename := none,
    documentId := 1, embedding := [1] }

/-- Concrete stored row: chunk inserted second, same embedding as `rowA`. -/
def rowB : DbRow :=
  { id := 2, content := "contentB", filename := "fileB", originalFilename := none,
    documentId := 1, embedding := [1] }

/-! ### Shared payload shapes -/

/-- A source entry as handed to the front end.  The union of the dictionary
shapes produced by the two agents; absent dictionary keys are `none`. -/
structure Source where
  title : String
  type : String
  url : Option String
  filename : Option String
  similarity : Option ℚ
  documentName : Option String
  verified : Option Bool
  description : Option String
  deriving DecidableEq

/-- A web search result dictionary as produced by the web service / web
research agent; absent keys are `none`. -/
structure WebResult where
  title : Option String
  url : Option String
  content : Option String
  score : Option ℚ
  source : Option String
  deriving DecidableEq

/-- Python `round(x, 2)`, idealised to round-half-up on rationals (the
half-to-even tie rule makes no difference in any statement below). -/
def round2 (q : ℚ) : ℚ := ((round (q * 100) : ℤ) : ℚ) / 100

/-- Python `str.strip()`. -/
def strStrip (s : String) : String := String.mk (stripChars s.data)

/-- Concrete verification-search web result used in witnesses. -/
def wrSample : WebResult :=
  { title := some "EU Climate Page", url := some "https://europa.eu/x",
    content := none, score := none, source := some "web_search" }

/-! ### Knowledge-base context retrieval (claim C3)

`ChatService.process_message` (chat_service.py:78) calls
`rag_service.get_context_for_query(query, max_chunks, max_tokens, db)`, and
chat_service.py:14 imports `get_rag_service`; neither is defined in the
source tree — `rag_service.py` contains no `get_context_for_query`,
`search_similar_chunks` or `get_rag_service`.  The operation is therefore
modelled from the spec (§4.4 `retrieve_context`). -/

/-- The triple returned by the spec's `retrieve_context`. -/
structure RagContext where
  context : String
  sources : List Source
  totalTokens : Nat
  deriving DecidableEq

/-- Modelled from the spec: the `len(text)/4` approximate token-count
heuristic of §4.4. -/
def tokenCount (text : String) : Nat := text.data.length / 4

/-- Modelled from the spec: greedy accumulation of chunk texts in the given
(descending-similarity) order under the token budget; a chunk that would
push the running total past the budget is dropped whole — accumulation
stops, nothing is truncated.  Returns the accumulated hits and the total
token count. -/
def accumulateChunks (budget : Nat) : Nat → List SearchHit → List SearchHit × Nat
  | used, [] => ([], used)
  | used, h :: t =>
    let c := tokenCount h.content
    if budget < used + c then ([], used)
    else
      let rest := accumulateChunks budget (used + c) t
      (h :: rest.1, rest.2)

/-- Modelled from the spec: the source entry contributed by one accumulated
chunk (§4.4). -/
def ragSourceOfHit (h : SearchHit) : Source :=
  { title := h.title, type := "knowledge_base", url := none,
    filename := some h.filename, similarity := some h.similarity,
    documentName := none, verified := some true, description := none }

/-- Modelled from the spec: `get_context_for_query` /
`retrieve_context(query, max_chunks, max_token_budget)`, missing from the
source tree.  `hits` stands for the similarity-floored, descending-ordered
output of the vector search; the first `max_chunks` hits are greedily
accumulated under the token budget. -/
def getContextForQuery (hits : List SearchHit) (maxChunks maxTokens : Nat) : RagContext :=
  let picked := accumulateChunks maxTokens 0 (hits.take maxChunks)
  { context := String.intercalate "\n\n" (picked.1.map fun h => h.content)
    sources := picked.1.map ragSourceOfHit
    totalTokens := picked.2 }

/-! ### Query classification: `UnifiedChatAgent._is_eu_green_query`
(unified_chat_agent.py:174-256) -/

/-- A chat history entry. -/
structure Msg where
  role : String
  content : String
  deriving DecidableEq

/-- `eu_terms` scanned in recent assistant messages
(unified_chat_agent.py:192-195). -/
def euTermsHistory : List String :=
  ["green deal", "biodiversity", "climate", "emission", "cbam",
   "directive", "regulation", "sustainability", "farm to fork",
   "circular economy", "renewable", "carbon", "protected areas",
   "restoration", "species", "pollinator", "strategy"]

/-- `follow_up_patterns` (unified_chat_agent.py:205-210). -/
def followUpPatterns : List String :=
  ["more information", "tell me more", "elaborate", "explain further",
   "details", "continue", "expand on", "more details", "give me more",
   "can you give me more", "about my previous", "about the previous",
   "more about", "additional information", "further details"]

/-- `generic_follow_ups` (unified_chat_agent.py:213-217). -/
def genericFollowUps : List String :=
  ["more information please", "give me more information please",
   "can you give me more information please", "about my previous message",
   "about the previous", "more please"]

/-- `eu_keywords` (unified_chat_agent.py:232-238). -/
def euKeywords : List String :=
  ["green deal", "european green deal", "climate law", "fit for 55",
   "taxonomy", "cbam", "carbon border", "farm to fork", "biodiversity strategy",
   "circular economy", "renewable energy", "emission", "carbon", "climate",
   "sustainability", "environment", "biodiversity", "directive", "regulation",
   "compliance", "csrd", "esg", "eu policy", "european policy"]

/-- `general_patterns` (unified_chat_agent.py:245-248). -/
def generalPatterns : List String :=
  ["hello", "hi", "hey", "thanks", "thank you", "who are you", "what are you",
   "goodbye", "bye", "how are you", "great", "excellent", "ok", "okay"]

/-- `policy_terms` (unified_chat_agent.py:255). -/
def policyTerms : List String :=
  ["policy", "regulation", "directive", "compliance", "eu", "european"]

/-- `_is_eu_green_query`: a follow-up to recent assistant EU context, or an
explicit EU keyword, wins; otherwise a general conversational pattern inside
the blank-padded query forces `false`; otherwise generic policy terms
decide. -/
def isEuGreenQuery (query : String) (history : List Msg) : Bool :=
  let ql := strStrip (strLower query)
  let followUp :=
    if 1 ≤ history.length then
      let recent := if 4 ≤ history.length then history.drop (history.length - 4) else history
      let euContextFound := recent.any fun m =>
        m.role == "assistant" && euTermsHistory.any fun t => containsSub (strLower m.content) t
      euContextFound &&
        (followUpPatterns.any (fun p => containsSub ql p) ||
          genericFollowUps.any fun p => containsSub ql p)
    else false
  if followUp then true
  else if euKeywords.any fun k => containsSub ql k then true
  else if generalPatterns.any fun p => containsSub (" " ++ ql ++ " ") p then false
  else policyTerms.any fun t => containsSub ql t

/-! ### The unified chat agent: `UnifiedChatAgent.process_query`
(unified_chat_agent.py:44-172) -/

/-- External calls observable in the pipeline trace. -/
inductive ExtCall where
  | ragRetrieve
  | webSearch
  | completion
  deriving DecidableEq

/-- `_perform_web_search` (unified_chat_agent.py:272-286): with no web
research agent there is no call and no result; a provider exception is
caught and yields the empty list.  The second component records whether the
external search was actually invoked. -/
def performWebSearch (webAvail : Bool) (outcome : Except String (List WebResult)) :
    List WebResult × List ExtCall :=
  if webAvail then
    (match outcome with
      | Except.ok l => l
      | Except.error _ => [],
     [ExtCall.webSearch])
  else ([], [])

/-- `_format_web_content` (unified_chat_agent.py:288-301). -/
def formatWebContent (webSources : List WebResult) (isVerification : Bool) : String :=
  if webSources.isEmpty then ""
  else
    let pre := if isVerification then "Recent Verification Sources" else "Web Research Results"
    let parts := webSources.map fun s =>
      let c := s.content.getD ""
      let c2 := if 400 < c.data.length then String.mk (c.data.take 400) ++ "..." else c
      "Source: " ++ s.title.getD "Web Source" ++ "\nContent: " ++ c2
    pre ++ ":\n" ++ String.intercalate "\n\n" parts

/-- Last segment of `url.split("/")`, with the `or "web_resource"` fallback
(unified_chat_agent.py:398). -/
def lastUrlSegment (u : String) : String :=
  let seg := (u.splitOn "/").getLastD ""
  if seg = "" then "web_resource" else seg

/-- The web-source entry built inside `_format_all_sources`
(unified_chat_agent.py:388-400). -/
def formatWebSource (s : WebResult) : Source :=
  let base : Source :=
    { title := "🌐 " ++ s.title.getD "Web Source"
      type := "EU Web Resource"
      url := none
      filename := none
      similarity := some (round2 (s.score.getD (85/100)))
      documentName := some (s.title.getD "")
      verified := none
      description := none }
  match s.url with
  | some u => { base with url := some u, filename := some (lastUrlSegment u) }
  | none => base

/-- The duplicate-removal pass of `_format_all_sources`
(unified_chat_agent.py:402-409): first occurrence of each
url-or-title key wins. -/
def dedupByUrlTitle : List Source → List String → List Source
  | [], _ => []
  | s :: ss, seen =>
    let key := s.url.getD s.title
    if seen.contains key then dedupByUrlTitle ss seen
    else s :: dedupByUrlTitle ss (key :: seen)

/-- `_format_all_sources` (unified_chat_agent.py:379-411): knowledge-base
sources pass through unchanged, web sources are reformatted and appended,
then duplicates by url-or-title are removed.  No canonical entry is
prepended and no caps are applied. -/
def formatAllSources (ragSources : List Source) (webSources : List WebResult) : List Source :=
  dedupByUrlTitle (ragSources ++ webSources.map formatWebSource) []

/-- The knowledge-base component of `_calculate_confidence`
(unified_chat_agent.py:418). -/
def ragScore (n : Nat) : ℚ := min (7/10) (4/10 + (n : ℚ) * (15/100))

/-- The web component of `_calculate_confidence`
(unified_chat_agent.py:419). -/
def webScore (n : Nat) : ℚ := min (3/10) ((n : ℚ) * (1/10))

/-- `_calculate_confidence` (unified_chat_agent.py:413-421). -/
def calculateConfidence (ragSources : List Source) (webSources : List WebResult)
    (context : String) : ℚ :=
  if context = "" then 3/10
  else min (95/100) (ragScore ragSources.length + webScore webSources.length)

/-- The response dictionary of the unified agent; absent keys are `none`. -/
structure AgentResult where
  response : String
  sources : List Source
  confidence : ℚ
  knowledgeUsed : Nat
  webResearchUsed : Nat
  language : String
  queryType : Option String
  errMsg : Option String
  deriving DecidableEq

/-- The fixed fallback dictionary the unified agent returns from its
top-level exception handler (unified_chat_agent.py:162-172). -/
def apologyResult (language e : String) : AgentResult :=
  { response := "I apologize, but I encountered an error while processing your request. Please try again."
    sources := []
    confidence := 0
    knowledgeUsed := 0
    webResearchUsed := 0
    language := language
    queryType := none
    errMsg := some e }

/-- `UnifiedChatAgent.process_query`.  `webOutcome` and `completionOutcome`
stand for the outcomes of the external web-search and chat-completion calls;
the system-prompt text fed to the opaque completion is not modelled.
Returns the response dictionary together with the trace of external calls
made. -/
def processQuery (query language : String) (history : List Msg) (ragContext : String)
    (ragSources : List Source) (webAvail : Bool)
    (webOutcome : Except String (List WebResult))
    (completionOutcome : Except String String) : AgentResult × List ExtCall :=
  let isEu := isEuGreenQuery query history
  let step2 : List WebResult × String × List ExtCall :=
    if isEu then
      if ragSources.length < 2 then
        let ws := performWebSearch webAvail webOutcome
        let enhanced :=
          if ragContext = "" && !ws.1.isEmpty then
            "Web Research Results:\n" ++ formatWebContent (ws.1.take 3) false
          else ragContext
        (ws.1, enhanced, ws.2)
      else if webAvail then
        let vs := performWebSearch webAvail webOutcome
        if !vs.1.isEmpty then
          (vs.1,
            ragContext ++ "\n\nRecent Web Information:\n" ++ formatWebContent (vs.1.take 2) true,
            vs.2)
        else ([], ragContext, vs.2)
      else ([], ragContext, [])
    else ([], ragContext, [])
  let webSources := step2.1
  let enhancedContext := step2.2.1
  let trace := step2.2.2 ++ [ExtCall.completion]
  match completionOutcome with
  | Except.error e => (apologyResult language e, trace)
  | Except.ok text =>
    ({ response := text
       sources := if isEu then formatAllSources ragSources webSources else []
       confidence := calculateConfidence ragSources webSources enhancedContext
       knowledgeUsed := ragSources.length
       webResearchUsed := webSources.length
       language := language
       queryType := some (if isEu then "eu_green_policy" else "general_conversation")
       errMsg := none }, trace)

/-! ### The chat service: `ChatService.process_message`
(chat_service.py:29-154) -/

/-- The response dictionary of the chat service (session id and timestamp
are external state and omitted). -/
structure ChatResponse where
  response : String
  sources : List Source
  confidence : ℚ
  language : String
  deriving DecidableEq

/-- The (title, type) duplicate removal of `process_message`
(chat_service.py:113-121). -/
def dedupByTitleType : List Source → List (String × String) → List Source
  | [], _ => []
  | s :: ss, seen =>
    if seen.contains (s.title, s.type) then dedupByTitleType ss seen
    else s :: dedupByTitleType ss ((s.title, s.type) :: seen)

/-- `ChatService.process_message`: the current user message is appended to
the history, knowledge-base retrieval (`get_context_for_query`) runs
unconditionally before any classification, the unified agent is invoked on
the retrieval result, and the agent's sources are deduplicated by
(title, type).  `rag` is the value the retrieval call returns; the trace
records that call followed by the agent's external calls. -/
def processMessage (message : String) (history : List Msg) (language : String)
    (rag : RagContext) (webAvail : Bool) (webOutcome : Except String (List WebResult))
    (completionOutcome : Except String String) : ChatResponse × List ExtCall :=
  let updatedHistory := history ++ [{ role := "user", content := message }]
  let agent := processQuery message language updatedHistory rag.context rag.sources
    webAvail webOutcome completionOutcome
  ({ response := agent.1.response
     sources := dedupByTitleType agent.1.sources []
     confidence := agent.1.confidence
     language := language }, ExtCall.ragRetrieve :: agent.2)

/-! ### Verdana agent source assembly: `VerdanaAgent._generate_response_with_docs`
(verdana_agent.py:457-521) and `_generate_response_web_only`
(verdana_agent.py:594-618) -/

/-- The canonical static official source always appended first
(verdana_agent.py:460-466 and 598-604). -/
def canonicalSource : Source :=
  { title := "European Green Deal - Official EU Documentation"
    type := "official_source"
    url := some "https://commission.europa.eu/publications/delivering-european-green-deal_en"
    filename := none
    similarity := none
    documentName := none
    verified := some true
    description := some "Official EU Commission source for Green Deal documentation" }

/-- Knowledge-base source entry (verdana_agent.py:474-481). -/
def mkKbSource (doc : SearchHit) : Source :=
  { title := doc.title
    type := "knowledge_base"
    url := none
    filename := some doc.filename
    similarity := some (round2 doc.similarity)
    documentName := none
    verified := some true
    description := some ("Internal document - " ++ doc.filename) }

/-- The document-source loop (verdana_agent.py:469-483): first five search
hits, deduplicated by filename, stopping once three knowledge-base entries
have been appended. -/
def kbSourcesAux : List SearchHit → List String → Nat → List Source
  | [], _, _ => []
  | doc :: docs, added, count =>
    if added.contains doc.filename then kbSourcesAux docs added count
    else if 3 ≤ count + 1 then [mkKbSource doc]
    else mkKbSource doc :: kbSourcesAux docs (doc.filename :: added) (count + 1)

/-- The knowledge-base portion of the docs-path source list. -/
def kbSources (ragResults : List SearchHit) : List Source :=
  kbSourcesAux (ragResults.take 5) [] 0

/-- Web source entry in the docs path (verdana_agent.py:507-515); the type
reflects the origin: results of the verification search (tagged
`source = "web_search"` by the web service) become `web_verification`,
broader results become `web_search`. -/
def mkWebVerifySource (title url : String) (origin : Option String) : Source :=
  { title := title
    type := if origin == some "web_search" then "web_verification" else "web_search"
    url := some url
    filename := none
    similarity := none
    documentName := none
    verified := some true
    description := some "Click to view online source" }

/-- The web-source loop of the docs path (verdana_agent.py:486-519): skip
entries with a blank title or URL and the synthetic "Web Search Summary"
entry, deduplicate by URL, stop once five have been appended. -/
def webSourcesAux : List WebResult → List String → Nat → List Source
  | [], _, _ => []
  | r :: rs, added, count =>
    let title := strStrip (r.title.getD "")
    let url := strStrip (r.url.getD "")
    if title == "" || url == "" || title == "Web Search Summary" then
      webSourcesAux rs added count
    else if added.contains url then webSourcesAux rs added count
    else if 5 ≤ count + 1 then [mkWebVerifySource title url r.source]
    else mkWebVerifySource title url r.source :: webSourcesAux rs (url :: added) (count + 1)

/-- Source assembly of `_generate_response_with_docs`: the canonical
official source, then knowledge-base sources (deduplicated by filename, at
most 3), then web sources (deduplicated by URL, at most 5, summary entry
dropped). -/
def buildDocSources (ragResults : List SearchHit) (webResults : List WebResult) :
    List Source :=
  canonicalSource :: (kbSources ragResults ++ webSourcesAux webResults [] 0)

/-- The web-source loop of the web-only path (verdana_agent.py:607-618):
entries that are not the synthetic summary and carry a URL are kept — no URL
deduplication here. -/
def webOnlyAux : List WebResult → List Source
  | [] => []
  | r :: rs =>
    let title := strStrip (r.title.getD "")
    let url := strStrip (r.url.getD "")
    if title != "Web Search Summary" && url != "" then
      ({ title := title, type := "web_search", url := some url, filename := none,
         similarity := none, documentName := none, verified := some true,
         description := some "Click to view online source" } : Source) :: webOnlyAux rs
    else webOnlyAux rs

/-- Source assembly of `_generate_response_web_only`: the canonical official
source, then the loop over the first four web results. -/
def buildWebOnlySources (webResults : List WebResult) : List Source :=
  canonicalSource :: webOnlyAux (webResults.take 4)

/-! ### Document upload: `RAGService.upload_document` (rag_service.py:270-374) -/

/-- A `documents` table row (the metadata json is omitted). -/
structure DocRecord where
  id : Nat
  filename : String
  title : String
  content : String
  fileHash : String
  deriving DecidableEq

/-- A `document_chunks` table row. -/
structure ChunkRecord where
  documentId : Nat
  content : String
  embedding : List ℚ
  filename : String
  title : String
  deriving DecidableEq

/-- The persistent store: the two tables plus the id sequence. -/
structure DbState where
  documents : List DocRecord
  chunks : List ChunkRecord
  nextId : Nat
  deriving DecidableEq

/-- `upload_document` after file reading and text extraction (external file
handling): `content` is the extracted text, `hashFn` stands for
`hashlib.md5(·).hexdigest()` and `embedFn` for the OpenAI embedding call.
An empty extraction fails (rag_service.py:289-291); an existing document
with the same content hash short-circuits to success without touching the
store (rag_service.py:307-314); otherwise the document row and its embedded
chunks are inserted.  `none` propagates chunking-fuel exhaustion. -/
def uploadDocument (hashFn : String → String) (embedFn : String → List ℚ)
    (chunkSize overlap fuel : Nat) (st : DbState) (content docName : String) :
    Option (Bool × DbState) :=
  if content = "" then some (false, st)
  else
    let fileHash := hashFn content
    if st.documents.any fun d => d.fileHash == fileHash then some (true, st)
    else
      match createChunks chunkSize overlap fuel content with
      | none => none
      | some chunkTexts =>
        let docId := st.nextId
        let doc : DocRecord :=
          { id := docId, filename := docName, title := docName,
            content := content, fileHash := fileHash }
        let newChunks := chunkTexts.map fun c =>
          ({ documentId := docId, content := c, embedding := embedFn c,
             filename := docName, title := docName } : ChunkRecord)
        some (true,
          { documents := st.documents ++ [doc],
            chunks := st.chunks ++ newChunks,
            nextId := st.nextId + 1 })

/-! ### Lemmas about the chunker -/

theorem dropWhile_ws_of_all (l : List Char) (h : ∀ c ∈ l, isWsChar c = true) :
    l.dropWhile isWsChar = [] := by
  induction l with
  | nil => rfl
  | cons c cs ih =>
    have hc := h c (by simp)
    simp only [List.dropWhile, hc]
    exact ih fun d hd => h d (by simp [hd])

theorem stripChars_of_all_ws (l : List Char) (h : ∀ c ∈ l, isWsChar c = true) :
    stripChars l = [] := by
  unfold stripChars
  rw [dropWhile_ws_of_all l h]
  rfl

theorem normalizeText_of_all_ws (s : String) (h : s.data.all isWsChar = true) :
    normalizeText s = "" := by
  unfold normalizeText
  rw [stripChars_of_all_ws s.data (by simpa [List.all_eq_true] using h)]
  rfl

theorem punctStep_fold_inv (l : List Char) (a b : Nat) (is : List Nat) :
    ∀ acc : Int, (acc = -1 ∨ ((a : Int) ≤ acc ∧ acc < (b : Int))) →
      (is.foldl (punctStep l a b) acc = -1 ∨
        ((a : Int) ≤ is.foldl (punctStep l a b) acc ∧
          is.foldl (punctStep l a b) acc < (b : Int))) := by
  induction is with
  | nil => intro acc h; simpa using h
  | cons i is ih =>
    intro acc h
    simp only [List.foldl_cons]
    refine ih _ ?_
    unfold punctStep
    split
    · rename_i hcond
      simp only [Bool.and_eq_true, decide_eq_true_eq] at hcond
      right
      exact ⟨by exact_mod_cast hcond.1.1, by exact_mod_cast hcond.1.2⟩
    · exact h

theorem lastPunct_cases (l : List Char) (a b : Nat) :
    lastPunct l a b = -1 ∨ ((a : Int) ≤ lastPunct l a b ∧ lastPunct l a b < (b : Int)) :=
  punctStep_fold_inv l a b (List.range l.length) (-1) (Or.inl rfl)

theorem chunkEnd_ge (cs : Nat) (hcs : 100 ≤ cs) (l : List Char) (start : Nat) :
    start + cs - 99 ≤ chunkEnd cs l start := by
  unfold chunkEnd
  by_cases h1 : start + cs < l.length
  · rw [if_pos h1]
    by_cases h2 : (start : Int) < lastPunct l (max (start + cs - 100) start) (start + cs)
    · rw [if_pos h2]
      rcases lastPunct_cases l (max (start + cs - 100) start) (start + cs) with hnone | ⟨hlo, _⟩
      · omega
      · have hmax : start + cs - 100 ≤ max (start + cs - 100) start := Nat.le_max_left _ _
        omega
    · rw [if_neg h2]
      omega
  · rw [if_neg h1]
    omega

theorem chunkNextStart_advance (cs ov : Nat) (hov : ov + 100 ≤ cs) (l : List Char)
    (start : Nat) : start + 1 ≤ chunkNextStart cs ov l start := by
  have h := chunkEnd_ge cs (by omega) l start
  unfold chunkNextStart
  omega

theorem chunkLoop_isSome (cs ov : Nat) (hov : ov + 100 ≤ cs) (l : List Char) :
    ∀ fuel start, l.length ≤ start + fuel →
      (chunkLoop cs ov l (fuel + 1) start).isSome = true := by
  intro fuel
  induction fuel with
  | zero =>
    intro start h
    rw [chunkLoop, if_neg (by omega)]
    rfl
  | succ fuel ih =>
    intro start h
    rw [chunkLoop]
    by_cases hs : start < l.length
    · rw [if_pos hs]
      have hadv := chunkNextStart_advance cs ov hov l start
      have hrec := ih (chunkNextStart cs ov l start) (by omega)
      cases hmatch : chunkLoop cs ov l (fuel + 1) (chunkNextStart cs ov l start) with
      | none => rw [hmatch] at hrec; simp at hrec
      | some rest => simp only [hmatch]; rfl
    · rw [if_neg hs]
      rfl

/-! ### Claim C2 — degenerate chunking configurations -/

/-- C2, counterexample.  The claim asserts that `overlap >= chunk_size` is
rejected with a `ConfigurationError` (no such check or exception class exists
anywhere in the repository) and that `overlap < chunk_size` makes the loop's
start strictly advance on every iteration.  With `chunk_size = 101` and
`overlap = 100 < 101` and a sentence end at index 99 of a 150-character text,
the loop is entered (`0 < length`) and the next start position is again 0:
the start does not advance, so the loop never terminates. -/
theorem C2_counterexample :
    100 < 101 ∧ 0 < punctText.length ∧ chunkNextStart 101 100 punctText 0 = 0 :=
  ⟨by norm_num, by decide, by decide⟩

/-- C2, amended.  `_create_chunks` performs no configuration check at all;
its loop strictly advances — and chunking therefore terminates, here with
fuel `length + 1` — under the stronger precondition
`overlap + 100 ≤ chunk_size` (the 100 is the sentence-boundary search
window), which holds for the default configuration (1000, 200) and the
documented one (800, 300) but not for every `overlap < chunk_size`. -/
theorem C2_chunking_terminates (cs ov : Nat) (text : String) (hov : ov + 100 ≤ cs) :
    (createChunks cs ov ((normalizeText text).data.length + 1) text).isSome = true := by
  unfold createChunks
  by_cases h : (normalizeText text).data.length ≤ cs
  · rw [if_pos h]; rfl
  · rw [if_neg h]
    exact chunkLoop_isSome cs ov hov (normalizeText text).data
      (normalizeText text).data.length 0 (by omega)

/-- C2, witness: the amended theorem applied at `chunk_size = 100`,
`overlap = 0`, on a 150-character text. -/
theorem C2_witness :
    0 + 100 ≤ 100 ∧
      (createChunks 100 0
        ((normalizeText (String.mk (List.replicate 150 'a'))).data.length + 1)
        (String.mk (List.replicate 150 'a'))).isSome = true :=
  ⟨by norm_num, C2_chunking_terminates 100 0 (String.mk (List.replicate 150 'a')) (by norm_num)⟩

/-! ### Claim C8 — chunking empty or whitespace-only text -/

/-- C8, counterexample.  The claim says empty or whitespace-only text yields
zero chunks; `_create_chunks` normalises the text to `""`, falls into the
`len(text) <= chunk_size` branch and returns one chunk whose text is empty
(configuration: the default `CHUNK_SIZE = 1000`, `CHUNK_OVERLAP = 200`). -/
theorem C8_counterexample : createChunks 1000 200 0 "" = some [""] := by decide

/-- C8, amended.  For every configuration and every text consisting only of
whitespace (including the empty text), `_create_chunks` returns exactly one
chunk, whose text is empty. -/
theorem C8_whitespace_single_empty_chunk (cs ov fuel : Nat) (text : String)
    (h : text.data.all isWsChar = true) :
    createChunks cs ov fuel text = some [""] := by
  unfold createChunks
  rw [normalizeText_of_all_ws text h]
  show (if ("" : String).data.length ≤ cs then some [("" : String)]
    else chunkLoop cs ov ("" : String).data fuel 0) = some [""]
  rw [if_pos (show ("" : String).data.length ≤ cs from Nat.zero_le cs)]

/-- C8, witness: the amended theorem applied to a three-blank text. -/
theorem C8_witness :
    ("   ".data.all isWsChar = true) ∧ createChunks 1000 200 7 "   " = some [""] :=
  ⟨by decide, C8_whitespace_single_empty_chunk 1000 200 7 "   " (by decide)⟩

/-! ### Claim C10 — totality and clamping of cosine similarity -/

theorem calculateCosineSimilarity_range (sqrtFn : ℚ → ℚ) (v1 v2 : List ℚ) :
    0 ≤ calculateCosineSimilarity sqrtFn v1 v2 ∧
      calculateCosineSimilarity sqrtFn v1 v2 ≤ 1 := by
  unfold calculateCosineSimilarity
  dsimp only
  split
  · exact ⟨le_refl 0, by norm_num⟩
  · exact ⟨le_max_left _ _, max_le (by norm_num) (min_le_left _ _)⟩

theorem csim_trunc (f : ℚ → ℚ) (v1 v2 : List ℚ) :
    calculateCosineSimilarity f v1 v2 =
      calculateCosineSimilarity f (v1.take (min v1.length v2.length))
        (v2.take (min v1.length v2.length)) := by
  unfold calculateCosineSimilarity
  simp only [List.length_take, List.take_take]
  have h1 : min (min v1.length v2.length) v1.length = min v1.length v2.length := by omega
  have h2 : min (min v1.length v2.length) v2.length = min v1.length v2.length := by omega
  have h3 : min (min v1.length v2.length) (min v1.length v2.length) =
      min v1.length v2.length := by omega
  simp only [h1, h2, h3]

theorem csim_zero (f : ℚ → ℚ) (hz : f 0 = 0) (m : Nat) (w : List ℚ) :
    calculateCosineSimilarity f (List.replicate m 0) w = 0 := by
  unfold calculateCosineSimilarity
  dsimp only
  rw [if_pos]
  left
  have hrep : ((List.replicate m (0 : ℚ)).take
      (min (List.replicate m (0 : ℚ)).length w.length)) =
      List.replicate (min m w.length) (0 : ℚ) := by
    simp [List.take_replicate]
  rw [hrep]
  simp [hz]

/-- C10.  `_calculate_cosine_similarity` is total at the query interface:
for every `sqrtFn` and every pair of rational vectors the result lies in
`[0, 1]`; vectors of unequal length are silently truncated to the common
prefix (the result equals the result on the truncations); and when
`sqrtFn 0 = 0` (as for the real square root) a zero vector yields exactly
`0`, the dimension mismatch and the zero magnitude being absorbed rather
than raised. -/
theorem C10_cosine_similarity_total (sqrtFn : ℚ → ℚ) (vec1 vec2 : List ℚ) :
    (0 ≤ calculateCosineSimilarity sqrtFn vec1 vec2 ∧
        calculateCosineSimilarity sqrtFn vec1 vec2 ≤ 1) ∧
      calculateCosineSimilarity sqrtFn vec1 vec2 =
        calculateCosineSimilarity sqrtFn (vec1.take (min vec1.length vec2.length))
          (vec2.take (min vec1.length vec2.length)) ∧
      (sqrtFn 0 = 0 → ∀ (m : Nat) (w : List ℚ),
        calculateCosineSimilarity sqrtFn (List.replicate m 0) w = 0) :=
  ⟨calculateCosineSimilarity_range sqrtFn vec1 vec2,
   csim_trunc sqrtFn vec1 vec2,
   fun hz m w => csim_zero sqrtFn hz m w⟩

/-- C10, witness: the theorem applied to vectors of unequal length and to a
zero vector, with the identity standing in for `sqrt`. -/
theorem C10_witness :
    (0 ≤ calculateCosineSimilarity (fun q => q) [1, 2] [3] ∧
        calculateCosineSimilarity (fun q => q) [1, 2] [3] ≤ 1) ∧
      calculateCosineSimilarity (fun q => q) (List.replicate 2 0) [5] = 0 :=
  ⟨(C10_cosine_similarity_total (fun q => q) [1, 2] [3]).1,
   (C10_cosine_similarity_total (fun q => q) [1, 2] [3]).2.2 rfl 2 [5]⟩

/-! ### Claim C1 — properties of `search_documents` -/

theorem csim_ones : calculateCosineSimilarity (fun q => q) [1] [1] = 1 := by
  unfold calculateCosineSimilarity
  norm_num

theorem search_AB :
    searchDocuments (fun q => q) [1] [rowA, rowB] 1 = [mkSearchHit rowA 1] := by
  unfold searchDocuments
  have hA : rowA.embedding = [1] := rfl
  have hB : rowB.embedding = [1] := rfl
  have h31 : (3 : ℚ)/10 < 1 := by norm_num
  simp only [List.filterMap_cons, List.filterMap_nil, hA, hB, csim_ones, if_pos h31]
  simp [List.insertionSort, List.orderedInsert, simGe, mkSearchHit]

theorem search_BA :
    searchDocuments (fun q => q) [1] [rowB, rowA] 1 = [mkSearchHit rowB 1] := by
  unfold searchDocuments
  have hA : rowA.embedding = [1] := rfl
  have hB : rowB.embedding = [1] := rfl
  have h31 : (3 : ℚ)/10 < 1 := by norm_num
  simp only [List.filterMap_cons, List.filterMap_nil, hA, hB, csim_ones, if_pos h31]
  simp [List.insertionSort, List.orderedInsert, simGe, mkSearchHit]

/-- C1, counterexample.  The claim says ties in similarity break by
insertion order, making the result deterministic given the stored chunks
and the query embedding.  The candidate rows are fetched with
`ORDER BY RANDOM()`, so for a store holding the two equally similar chunks
`rowA` (inserted first) and `rowB`, both fetch orders occur — and they
produce different results: the Python stable sort preserves the random
fetch order among ties, so whichever chunk the database happens to return
first wins. -/
theorem C1_counterexample :
    searchDocuments (fun q => q) [1] [rowA, rowB] 1 ≠
      searchDocuments (fun q => q) [1] [rowB, rowA] 1 := by
  rw [search_AB, search_BA]
  simp [mkSearchHit, rowA, rowB]

/-- C1, amended.  For every `sqrtFn`, query embedding, fetched candidate
list and `top_k`, the output of `search_documents` is sorted by descending
similarity, has length at most `top_k`, and every returned similarity
exceeds the 0.3 floor and lies in `[0, 1]`.  These hold relative to the
randomly fetched candidate subset (at most `min(1000, 50 * top_k)` rows);
ties break by the random fetch order, not by insertion order. -/
theorem C1_search_properties (sqrtFn : ℚ → ℚ) (queryEmbedding : List ℚ)
    (rows : List DbRow) (topK : Nat) :
    List.Pairwise simGe (searchDocuments sqrtFn queryEmbedding rows topK) ∧
      (searchDocuments sqrtFn queryEmbedding rows topK).length ≤ topK ∧
      ∀ h ∈ searchDocuments sqrtFn queryEmbedding rows topK,
        3/10 < h.similarity ∧ 0 ≤ h.similarity ∧ h.similarity ≤ 1 := by
  unfold searchDocuments
  dsimp only
  refine ⟨?_, ?_, ?_⟩
  · exact (List.sorted_insertionSort simGe _).sublist (List.take_sublist _ _)
  · exact List.length_take_le _ _
  · intro h hmem
    have hmem2 : h ∈ List.insertionSort simGe _ := List.mem_of_mem_take hmem
    rw [(List.perm_insertionSort simGe _).mem_iff] at hmem2
    rw [List.mem_filterMap] at hmem2
    obtain ⟨row, _, hrow⟩ := hmem2
    by_cases hc : 3/10 < calculateCosineSimilarity sqrtFn queryEmbedding row.embedding
    · rw [if_pos hc] at hrow
      have hr := calculateCosineSimilarity_range sqrtFn queryEmbedding row.embedding
      cases hrow
      exact ⟨hc, hr.1, hr.2⟩
    · rw [if_neg hc] at hrow
      exact absurd hrow (by simp)

/-- C1, witness: the amended theorem applied to a concrete store and a hit
of that store. -/
theorem C1_witness :
    3/10 < (mkSearchHit rowA 1).similarity ∧ 0 ≤ (mkSearchHit rowA 1).similarity ∧
      (mkSearchHit rowA 1).similarity ≤ 1 :=
  (C1_search_properties (fun q => q) [1] [rowA, rowB] 1).2.2 (mkSearchHit rowA 1)
    (by rw [search_AB]; exact List.mem_singleton_self _)

/-! ### Claim C3 — token budget of context retrieval -/

theorem accumulateChunks_inv (budget : Nat) (l : List SearchHit) :
    ∀ used, used ≤ budget →
      (accumulateChunks budget used l).2 ≤ budget ∧
        ∀ h ∈ (accumulateChunks budget used l).1, h ∈ l := by
  induction l with
  | nil =>
    intro used hu
    exact ⟨hu, by simp [accumulateChunks]⟩
  | cons h t ih =>
    intro used hu
    rw [accumulateChunks]
    dsimp only
    split
    · exact ⟨hu, by simp⟩
    · rename_i hfit
      have hrec := ih (used + tokenCount h.content) (by omega)
      refine ⟨hrec.1, ?_⟩
      intro x hx
      rcases List.mem_cons.mp hx with hx1 | hx2
      · exact hx1 ▸ List.mem_cons_self h t
      · exact List.mem_cons_of_mem h (hrec.2 x hx2)

/-- C3.  For every hit list, chunk cap and token budget `B`, the modelled
`get_context_for_query` reports `total_tokens_used ≤ B`, and every returned
source entry is the entry of a whole input chunk — chunks are dropped
entirely, never truncated. -/
theorem C3_context_budget (hits : List SearchHit) (maxChunks B : Nat) :
    (getContextForQuery hits maxChunks B).totalTokens ≤ B ∧
      ∀ s ∈ (getContextForQuery hits maxChunks B).sources,
        ∃ h, h ∈ hits ∧ s = ragSourceOfHit h := by
  unfold getContextForQuery
  dsimp only
  have hinv := accumulateChunks_inv B (hits.take maxChunks) 0 (Nat.zero_le B)
  refine ⟨hinv.1, ?_⟩
  intro s hs
  rw [List.mem_map] at hs
  obtain ⟨h, hh, rfl⟩ := hs
  exact ⟨h, List.mem_of_mem_take (hinv.2 h hh), rfl⟩

/-- C3, witness: the theorem applied to a one-hit store with budget 2000. -/
theorem C3_witness :
    (getContextForQuery [mkSearchHit rowA 1] 5 2000).totalTokens ≤ 2000 ∧
      ∃ h, h ∈ [mkSearchHit rowA 1] ∧
        ragSourceOfHit (mkSearchHit rowA 1) = ragSourceOfHit h :=
  ⟨(C3_context_budget [mkSearchHit rowA 1] 5 2000).1,
   (C3_context_budget [mkSearchHit rowA 1] 5 2000).2 (ragSourceOfHit (mkSearchHit rowA 1))
     (List.mem_singleton_self _)⟩

/-! ### Claim C9 — shape of the confidence score -/

theorem ragScore_mono {n m : Nat} (h : n ≤ m) : ragScore n ≤ ragScore m := by
  unfold ragScore
  refine min_le_min le_rfl ?_
  have hc : (n : ℚ) ≤ (m : ℚ) := by exact_mod_cast h
  nlinarith

theorem webScore_mono {n m : Nat} (h : n ≤ m) : webScore n ≤ webScore m := by
  unfold webScore
  refine min_le_min le_rfl ?_
  have hc : (n : ℚ) ≤ (m : ℚ) := by exact_mod_cast h
  nlinarith

/-- C9.  `_calculate_confidence` is monotone in the number of knowledge-base
sources and in the number of web sources; the knowledge-base component is
capped at 0.7, the web component at 0.3, the sum at 0.95 (strictly below 1);
and an empty assembled context yields the fixed floor 0.3. -/
theorem C9_confidence_properties (r r' : List Source) (w w' : List WebResult) (c : String) :
    (r.length ≤ r'.length → calculateConfidence r w c ≤ calculateConfidence r' w c) ∧
      (w.length ≤ w'.length → calculateConfidence r w c ≤ calculateConfidence r w' c) ∧
      ragScore r.length ≤ 7/10 ∧
      webScore w.length ≤ 3/10 ∧
      calculateConfidence r w c ≤ 95/100 ∧
      (95/100 : ℚ) < 1 ∧
      (c = "" → calculateConfidence r w c = 3/10) := by
  unfold calculateConfidence
  by_cases hc : c = ""
  · simp only [if_pos hc]
    refine ⟨fun _ => le_rfl, fun _ => le_rfl, min_le_left _ _, min_le_left _ _, by norm_num,
      by norm_num, fun _ => by norm_num⟩
  · simp only [if_neg hc]
    refine ⟨?_, ?_, min_le_left _ _, min_le_left _ _, min_le_left _ _, by norm_num,
      fun hcc => absurd hcc hc⟩
    · intro hl
      exact min_le_min le_rfl (add_le_add (ragScore_mono hl) le_rfl)
    · intro hl
      exact min_le_min le_rfl (add_le_add le_rfl (webScore_mono hl))

/-- C9, witness: monotonicity and the floor at concrete inputs. -/
theorem C9_witness :
    calculateConfidence [] [] "x" ≤ calculateConfidence [canonicalSource] [] "x" ∧
      calculateConfidence [] [] "" = 3/10 :=
  ⟨(C9_confidence_properties [] [canonicalSource] [] [] "x").1 (by norm_num),
   (C9_confidence_properties [] [] [] [] "").2.2.2.2.2.2 rfl⟩

/-! ### Claim C5 — idempotent upload by content hash -/

/-- C5.  A successful `upload_document` followed by a second upload of the
same content (hence the same hash, `hashFn` being a function) is a no-op:
the second call finds the stored hash, inserts no document and no chunks,
and still reports success on the unchanged store. -/
theorem C5_upload_idempotent (hashFn : String → String) (embedFn : String → List ℚ)
    (chunkSize overlap fuel : Nat) (st st2 : DbState) (content docName : String)
    (h : uploadDocument hashFn embedFn chunkSize overlap fuel st content docName =
      some (true, st2)) :
    uploadDocument hashFn embedFn chunkSize overlap fuel st2 content docName =
      some (true, st2) := by
  unfold uploadDocument at h ⊢
  by_cases hc : content = ""
  · rw [if_pos hc] at h
    simp at h
  · rw [if_neg hc] at h ⊢
    dsimp only at h ⊢
    by_cases hex : (st.documents.any fun d => d.fileHash == hashFn content) = true
    · rw [if_pos hex] at h
      simp only [Option.some.injEq, Prod.mk.injEq] at h
      have hst : st = st2 := h.2
      subst hst
      rw [if_pos hex]
    · rw [if_neg hex] at h
      cases hcc : createChunks chunkSize overlap fuel content with
      | none => rw [hcc] at h; simp at h
      | some cts =>
        rw [hcc] at h
        simp only [Option.some.injEq, Prod.mk.injEq] at h
        have hdocs : st2.documents = st.documents ++
            [{ id := st.nextId, filename := docName, title := docName,
               content := content, fileHash := hashFn content }] := by
          rw [← h.2]
        rw [if_pos]
        rw [hdocs]
        simp [List.any_append]

/-- C5, witness: a concrete first upload into the empty store followed by
the idempotent re-upload of the same content. -/
theorem C5_witness :
    uploadDocument (fun s => s) (fun _ => [(1 : ℚ)]) 1000 200 0
        { documents := [], chunks := [], nextId := 0 } "abc" "doc" =
      some (true,
        { documents := [{ id := 0, filename := "doc", title := "doc",
                          content := "abc", fileHash := "abc" }],
          chunks := [{ documentId := 0, content := "abc", embedding := [(1 : ℚ)],
                       filename := "doc", title := "doc" }],
          nextId := 1 }) ∧
      uploadDocument (fun s => s) (fun _ => [(1 : ℚ)]) 1000 200 0
        { documents := [{ id := 0, filename := "doc", title := "doc",
                          content := "abc", fileHash := "abc" }],
          chunks := [{ documentId := 0, content := "abc", embedding := [(1 : ℚ)],
                       filename := "doc", title := "doc" }],
          nextId := 1 } "abc" "doc" =
      some (true,
        { documents := [{ id := 0, filename := "doc", title := "doc",
                          content := "abc", fileHash := "abc" }],
          chunks := [{ documentId := 0, content := "abc", embedding := [(1 : ℚ)],
                       filename := "doc", title := "doc" }],
          nextId := 1 }) :=
  ⟨rfl, C5_upload_idempotent (fun s => s) (fun _ => [(1 : ℚ)]) 1000 200 0
    { documents := [], chunks := [], nextId := 0 } _ "abc" "doc" rfl⟩

/-! ### Claim C4 — casual and identity queries -/

theorem processQuery_not_eu (query language : String) (history : List Msg)
    (ragContext : String) (ragSources : List Source) (webAvail : Bool)
    (webOutcome : Except String (List WebResult)) (completionOutcome : Except String String)
    (hclass : isEuGreenQuery query history = false) :
    (processQuery query language history ragContext ragSources webAvail webOutcome
        completionOutcome).1.sources = [] ∧
      (processQuery query language history ragContext ragSources webAvail webOutcome
        completionOutcome).2 = [ExtCall.completion] := by
  unfold processQuery
  rw [hclass]
  dsimp only
  cases completionOutcome with
  | error e => exact ⟨rfl, rfl⟩
  | ok text => exact ⟨rfl, rfl⟩

/-- C4, counterexample.  The claim says that for a casual query ("hello"
with empty history) the pipeline performs no knowledge-base retrieval; but
`process_message` calls `get_context_for_query` unconditionally, before any
classification, so the retrieval appears in the trace of that very
scenario (the sources are nonetheless empty). -/
theorem C4_counterexample :
    ExtCall.ragRetrieve ∈ (processMessage "hello" [] "en" (getContextForQuery [] 5 2000) true
        (Except.ok []) (Except.ok "Hi there")).2 ∧
      (processMessage "hello" [] "en" (getContextForQuery [] 5 2000) true
        (Except.ok []) (Except.ok "Hi there")).1.sources = [] := by
  exact ⟨by decide, by decide⟩

/-- C4, amended.  For every query classified as non-EU-green (casual or
identity — e.g. "hello"), the pipeline returns an empty sources list and
performs no web search; knowledge-base retrieval, however, is still
executed unconditionally by the chat service before classification, its
result simply unused for the sources. -/
theorem C4_casual_no_web_empty_sources (message : String) (history : List Msg)
    (language : String) (rag : RagContext) (webAvail : Bool)
    (webOutcome : Except String (List WebResult)) (completionOutcome : Except String String)
    (hclass : isEuGreenQuery message
      (history ++ [{ role := "user", content := message }]) = false) :
    (processMessage message history language rag webAvail webOutcome
        completionOutcome).1.sources = [] ∧
      ExtCall.webSearch ∉ (processMessage message history language rag webAvail webOutcome
        completionOutcome).2 ∧
      ExtCall.ragRetrieve ∈ (processMessage message history language rag webAvail webOutcome
        completionOutcome).2 := by
  have h := processQuery_not_eu message language
    (history ++ [{ role := "user", content := message }])
    rag.context rag.sources webAvail webOutcome completionOutcome hclass
  unfold processMessage
  dsimp only
  rw [h.1, h.2]
  exact ⟨rfl, by simp, by simp⟩

/-- C4, witness: the amended theorem applied to the query "hello" with
empty history. -/
theorem C4_witness :
    isEuGreenQuery "hello" ([] ++ [{ role := "user", content := "hello" }]) = false ∧
      (processMessage "hello" [] "en" (getContextForQuery [] 5 2000) true
        (Except.ok []) (Except.ok "Hi there")).1.sources = [] :=
  ⟨by decide,
   (C4_casual_no_web_empty_sources "hello" [] "en" (getContextForQuery [] 5 2000) true
     (Except.ok []) (Except.ok "Hi there") (by decide)).1⟩

/-! ### Claim C6 — exception handling in query processing -/

theorem perform_err_eq (webAvail : Bool) (e : String) :
    performWebSearch webAvail (Except.error e) = performWebSearch webAvail (Except.ok []) := by
  cases webAvail <;> rfl

/-- C6, counterexample.  The claim says every exception raised anywhere
inside query processing yields the fixed apology with confidence 0.0; but a
web-search provider exception is caught inside `_perform_web_search` and
degrades to an empty result list: for the in-domain query "climate" with a
failing web search and a succeeding completion, the pipeline returns the
normal completion text with confidence 0.3, not the apology. -/
theorem C6_counterexample :
    (processQuery "climate" "en" [] "" [] true (Except.error "boom")
        (Except.ok "All good")).1.response = "All good" ∧
      (processQuery "climate" "en" [] "" [] true (Except.error "boom")
        (Except.ok "All good")).1.confidence = 3/10 ∧
      ((3 : ℚ)/10 ≠ 0) ∧
      (processQuery "climate" "en" [] "" [] true (Except.error "boom")
        (Except.ok "All good")).1.queryType = some "eu_green_policy" :=
  ⟨rfl, rfl, by norm_num, rfl⟩

/-- C6, amended.  Web-search exceptions are absorbed inside
`_perform_web_search`: a failing web call behaves exactly like one that
returns no results, with processing continuing normally.  An exception of
the external completion call — the remaining external call of
`process_query` — is caught by the top-level handler, which returns the
fixed apology with empty sources and confidence 0.0; no exception
propagates to the caller. -/
theorem C6_error_fallback (query language : String) (history : List Msg)
    (ragContext : String) (ragSources : List Source) (webAvail : Bool)
    (webOutcome : Except String (List WebResult)) (completionOutcome : Except String String)
    (e : String) :
    (processQuery query language history ragContext ragSources webAvail (Except.error e)
        completionOutcome =
      processQuery query language history ragContext ragSources webAvail (Except.ok [])
        completionOutcome) ∧
    (completionOutcome = Except.error e →
      (processQuery query language history ragContext ragSources webAvail webOutcome
          completionOutcome).1 = apologyResult language e) := by
  constructor
  · unfold processQuery
    rw [perform_err_eq]
  · intro hcc
    subst hcc
    unfold processQuery
    rfl

/-- C6, witness: the fallback conjunct applied to a failing completion. -/
theorem C6_witness :
    (processQuery "q" "en" [] "" [] false (Except.ok []) (Except.error "x")).1 =
      apologyResult "en" "x" :=
  (C6_error_fallback "q" "en" [] "" [] false (Except.ok []) (Except.error "x") "x").2 rfl


/-! ### Claim C7 — source assembly -/

theorem kbSourcesAux_type (docs : List SearchHit) :
    ∀ added count, ∀ s ∈ kbSourcesAux docs added count, s.type = "knowledge_base" := by
  induction docs with
  | nil => intro added count s hs; simp [kbSourcesAux] at hs
  | cons d ds ih =>
    intro added count s hs
    rw [kbSourcesAux] at hs
    split at hs
    · exact ih _ _ s hs
    · split at hs
      · simp only [List.mem_singleton] at hs; subst hs; rfl
      · rcases List.mem_cons.mp hs with h1 | h2
        · subst h1; rfl
        · exact ih _ _ s h2

theorem kbSourcesAux_length (docs : List SearchHit) :
    ∀ added count, count ≤ 2 → (kbSourcesAux docs added count).length ≤ 3 - count := by
  induction docs with
  | nil => intro added count _; simp [kbSourcesAux]
  | cons d ds ih =>
    intro added count hcount
    rw [kbSourcesAux]
    split
    · exact ih added count hcount
    · split
      · rename_i hstop
        simp only [List.length_singleton]
        omega
      · rename_i hcont
        simp only [List.length_cons]
        have := ih (d.filename :: added) (count + 1) (by omega)
        omega

theorem kbSourcesAux_distinct (docs : List SearchHit) :
    ∀ added count,
      (∀ s ∈ kbSourcesAux docs added count, ∀ f ∈ added, s.filename ≠ some f) ∧
        List.Pairwise (fun a b => a.filename ≠ b.filename) (kbSourcesAux docs added count) := by
  induction docs with
  | nil => intro added count; simp [kbSourcesAux]
  | cons d ds ih =>
    intro added count
    rw [kbSourcesAux]
    split
    · exact ih added count
    · rename_i hseen
      have hnotmem : d.filename ∉ added := by
        intro hmem
        exact hseen (List.elem_eq_true_of_mem hmem)
      split
      · constructor
        · intro s hs f hf
          simp only [List.mem_singleton] at hs
          subst hs
          simp only [mkKbSource, Option.some.injEq, ne_eq]
          intro heq
          exact hnotmem (heq ▸ hf)
        · simp
      · constructor
        · intro s hs f hf
          rcases List.mem_cons.mp hs with h1 | h2
          · subst h1
            simp only [mkKbSource, Option.some.injEq, ne_eq]
            intro heq
            exact hnotmem (heq ▸ hf)
          · exact (ih _ _).1 s h2 f (List.mem_cons_of_mem _ hf)
        · refine List.pairwise_cons.mpr ⟨?_, (ih _ _).2⟩
          intro b hb
          have hb2 := (ih _ _).1 b hb d.filename (List.mem_cons_self _ _)
          exact fun heq => hb2 (by rw [← heq]; rfl)

theorem webSourcesAux_props (rs : List WebResult) :
    ∀ added count, ∀ s ∈ webSourcesAux rs added count,
      (s.type = "web_verification" ∨ s.type = "web_search") ∧ s.title ≠ "Web Search Summary" := by
  induction rs with
  | nil => intro added count s hs; simp [webSourcesAux] at hs
  | cons r rest ih =>
    intro added count s hs
    rw [webSourcesAux] at hs
    split at hs
    · exact ih _ _ s hs
    · rename_i hskip
      simp only [Bool.or_eq_true, beq_iff_eq, not_or] at hskip
      split at hs
      · exact ih _ _ s hs
      · have hemit : ∀ t u o, ((mkWebVerifySource t u o).type = "web_verification" ∨
            (mkWebVerifySource t u o).type = "web_search") := by
          intro t u o
          unfold mkWebVerifySource
          dsimp only
          split
          · exact Or.inl rfl
          · exact Or.inr rfl
        split at hs
        · simp only [List.mem_singleton] at hs
          subst hs
          exact ⟨hemit _ _ _, hskip.2⟩
        · rcases List.mem_cons.mp hs with h1 | h2
          · subst h1
            exact ⟨hemit _ _ _, hskip.2⟩
          · exact ih _ _ s h2

theorem webSourcesAux_length (rs : List WebResult) :
    ∀ added count, count ≤ 4 → (webSourcesAux rs added count).length ≤ 5 - count := by
  induction rs with
  | nil => intro added count _; simp [webSourcesAux]
  | cons r rest ih =>
    intro added count hcount
    rw [webSourcesAux]
    split
    · exact ih _ _ hcount
    · split
      · exact ih _ _ hcount
      · split
        · simp only [List.length_singleton]
          omega
        · rename_i hcont
          simp only [List.length_cons]
          have := ih (strStrip (r.url.getD "") :: added) (count + 1) (by omega)
          omega

theorem webSourcesAux_distinct (rs : List WebResult) :
    ∀ added count,
      (∀ s ∈ webSourcesAux rs added count, ∀ u ∈ added, s.url ≠ some u) ∧
        List.Pairwise (fun a b => a.url ≠ b.url) (webSourcesAux rs added count) := by
  induction rs with
  | nil => intro added count; simp [webSourcesAux]
  | cons r rest ih =>
    intro added count
    rw [webSourcesAux]
    split
    · exact ih _ _
    · split
      · exact ih _ _
      · rename_i hskip hseen
        have hnotmem : strStrip (r.url.getD "") ∉ added := by
          intro hmem
          exact hseen (List.elem_eq_true_of_mem hmem)
        split
        · constructor
          · intro s hs u hu
            simp only [List.mem_singleton] at hs
            subst hs
            simp only [mkWebVerifySource, Option.some.injEq, ne_eq]
            intro heq
            exact hnotmem (heq ▸ hu)
          · simp
        · constructor
          · intro s hs u hu
            rcases List.mem_cons.mp hs with h1 | h2
            · subst h1
              simp only [mkWebVerifySource, Option.some.injEq, ne_eq]
              intro heq
              exact hnotmem (heq ▸ hu)
            · exact (ih _ _).1 s h2 u (List.mem_cons_of_mem _ hu)
          · refine List.pairwise_cons.mpr ⟨?_, (ih _ _).2⟩
            intro b hb
            have hb2 := (ih _ _).1 b hb (strStrip (r.url.getD ""))
              (List.mem_cons_self _ _)
            exact fun heq => hb2 (by rw [← heq]; rfl)

theorem webOnlyAux_length (rs : List WebResult) :
    (webOnlyAux rs).length ≤ rs.length := by
  induction rs with
  | nil => simp [webOnlyAux]
  | cons r rest ih =>
    rw [webOnlyAux]
    split
    · simp only [List.length_cons]
      omega
    · simp only [List.length_cons]
      omega

theorem webOnlyAux_props (rs : List WebResult) :
    ∀ s ∈ webOnlyAux rs, s.type = "web_search" ∧ s.title ≠ "Web Search Summary" := by
  induction rs with
  | nil => intro s hs; simp [webOnlyAux] at hs
  | cons r rest ih =>
    intro s hs
    rw [webOnlyAux] at hs
    split at hs
    · rename_i hcond
      simp only [Bool.and_eq_true, bne_iff_ne, ne_eq] at hcond
      rcases List.mem_cons.mp hs with h1 | h2
      · subst h1
        exact ⟨rfl, hcond.1⟩
      · exact ih s h2
    · exact ih s hs

theorem dedupByUrlTitle_distinct (l : List Source) :
    ∀ seen,
      (∀ s ∈ dedupByUrlTitle l seen, (s.url.getD s.title) ∉ seen) ∧
        List.Pairwise (fun a b => a.url.getD a.title ≠ b.url.getD b.title)
          (dedupByUrlTitle l seen) := by
  induction l with
  | nil => intro seen; simp [dedupByUrlTitle]
  | cons s ss ih =>
    intro seen
    rw [dedupByUrlTitle]
    split
    · exact ih _
    · rename_i hseen
      have hnotmem : s.url.getD s.title ∉ seen := by
        intro hmem
        exact hseen (List.elem_eq_true_of_mem hmem)
      constructor
      · intro x hx
        rcases List.mem_cons.mp hx with h1 | h2
        · subst h1; exact hnotmem
        · intro hmem
          exact (ih _).1 x h2 (List.mem_cons_of_mem _ hmem)
      · refine List.pairwise_cons.mpr ⟨?_, (ih _).2⟩
        intro b hb
        have hb2 := (ih _).1 b hb
        intro heq
        exact hb2 (heq ▸ List.mem_cons_self _ _)

/-- C7, counterexample.  The claim says every in-domain response's sources
list begins with the canonical static official source; in the live pipeline
(the unified agent, the one the chat service invokes) `_format_all_sources`
prepends nothing: an in-domain query ("climate") with no knowledge-base
sources and no web results returns an empty sources list. -/
theorem C7_counterexample :
    (processQuery "climate" "en" [] "" [] true (Except.ok [])
        (Except.ok "ans")).1.queryType = some "eu_green_policy" ∧
      (processQuery "climate" "en" [] "" [] true (Except.ok [])
        (Except.ok "ans")).1.sources = [] :=
  ⟨rfl, rfl⟩

/-- C7, amended.  The described assembly — canonical official source first,
then knowledge-base sources deduplicated by filename and capped at 3, then
web sources deduplicated by URL and capped at 5, origin-reflecting type
tags, the synthetic "Web Search Summary" entry filtered out — is the docs
path of the Verdana agent (`_generate_response_with_docs`).  The Verdana
web-only path prepends the canonical source and filters the summary entry
but caps web sources at 4 without URL deduplication; and the unified
agent's `_format_all_sources` (the live pipeline) prepends no canonical
source and applies no caps, only deduplication by url-or-title. -/
theorem C7_source_assembly (ragResults : List SearchHit) (webResults : List WebResult)
    (ragSources : List Source) (webSources : List WebResult) :
    (buildDocSources ragResults webResults).head? = some canonicalSource ∧
      (kbSources ragResults).length ≤ 3 ∧
      (∀ s ∈ kbSources ragResults, s.type = "knowledge_base") ∧
      List.Pairwise (fun a b => a.filename ≠ b.filename) (kbSources ragResults) ∧
      (webSourcesAux webResults [] 0).length ≤ 5 ∧
      (∀ s ∈ webSourcesAux webResults [] 0,
        (s.type = "web_verification" ∨ s.type = "web_search") ∧
          s.title ≠ "Web Search Summary") ∧
      List.Pairwise (fun a b => a.url ≠ b.url) (webSourcesAux webResults [] 0) ∧
      (buildWebOnlySources webResults).head? = some canonicalSource ∧
      (webOnlyAux (webResults.take 4)).length ≤ 4 ∧
      (∀ s ∈ webOnlyAux (webResults.take 4),
        s.type = "web_search" ∧ s.title ≠ "Web Search Summary") ∧
      List.Pairwise (fun a b => a.url.getD a.title ≠ b.url.getD b.title)
        (formatAllSources ragSources webSources) := by
  refine ⟨rfl, ?_, ?_, ?_, ?_, ?_, ?_, rfl, ?_, ?_, ?_⟩
  · have h := kbSourcesAux_length (ragResults.take 5) [] 0 (by omega)
    unfold kbSources
    omega
  · intro s hs
    exact kbSourcesAux_type (ragResults.take 5) [] 0 s hs
  · exact (kbSourcesAux_distinct (ragResults.take 5) [] 0).2
  · have h := webSourcesAux_length webResults [] 0 (by omega)
    omega
  · intro s hs
    exact webSourcesAux_props webResults [] 0 s hs
  · exact (webSourcesAux_distinct webResults [] 0).2
  · have h1 := webOnlyAux_length (webResults.take 4)
    have h2 : (webResults.take 4).length ≤ 4 := List.length_take_le _ _
    omega
  · exact webOnlyAux_props (webResults.take 4)
  · unfold formatAllSources
    exact (dedupByUrlTitle_distinct (ragSources ++ webSources.map formatWebSource) []).2

/-- C7, witness: the amended theorem applied to a concrete web result in
the docs path. -/
theorem C7_witness :
    (buildDocSources [] [wrSample]).head? = some canonicalSource ∧
      ((mkWebVerifySource (strStrip (wrSample.title.getD ""))
            (strStrip (wrSample.url.getD "")) wrSample.source).type = "web_verification" ∨
          (mkWebVerifySource (strStrip (wrSample.title.getD ""))
            (strStrip (wrSample.url.getD "")) wrSample.source).type = "web_search") ∧
        (mkWebVerifySource (strStrip (wrSample.title.getD ""))
          (strStrip (wrSample.url.getD "")) wrSample.source).title ≠ "Web Search Summary" :=
  ⟨(C7_source_assembly [] [wrSample] [] []).1,
   (C7_source_assembly [] [wrSample] [] []).2.2.2.2.2.1 _ (List.mem_singleton_self _)⟩

end EuGreen
